import Mathlib

/-!
Verification of the stratisd block-device manager core
(`src/engine/strat_engine/backstore/blockdevmgr.rs` and
`src/engine/strat_engine/backstore/identify.rs`) against its
natural-language specification.

Machine integers: sector counts, byte counts and timestamps are modelled
as `Nat` (the Rust source uses `Sectors`/`Bytes` newtypes over `u64` and
`DateTime` with nanosecond precision; no arithmetic in the modelled code
can overflow a `u64` in any scenario the claims quantify over, and the
one place the source checks for `DateTime` overflow, in `save_state`, is
an `expect` on `checked_add_signed` which the model renders as plain
`Nat` successor).  Rust panics (failed `assert_eq!`, arithmetic
underflow, out-of-bounds indexing) are modelled explicitly by the
`PanicOr` result type.  Fallible operations return `Except`.
-/

namespace Stratisd

/-- Sector count (512-byte units), `devicemapper::Sectors`. -/
abbrev Sectors := Nat

/-- Device uuid, `DevUuid` (opaque 128-bit identifier). -/
abbrev DevUuid := Nat

/-- Pool uuid, `PoolUuid` (opaque 128-bit identifier). -/
abbrev PoolUuid := Nat

/-- Kernel device number, `devicemapper::Device`. -/
abbrev Device := Nat

/-- Result of a Rust computation that may panic. -/
inductive PanicOr (α : Type) : Type
  | panicked : PanicOr α
  | ok : α → PanicOr α
  deriving DecidableEq

/-- A continuous set of sectors on a disk (`Segment` in blockdevmgr.rs). -/
structure Segment where
  start : Sectors
  length : Sectors
  device : Device
  deriving DecidableEq

/-- A segment together with the uuid of the member device it was carved
from (`BlkDevSegment` in blockdevmgr.rs). -/
structure BlkDevSegment where
  uuid : DevUuid
  segment : Segment
  deriving DecidableEq

/-- Parameters of a linear device-mapper target
(`devicemapper::LinearTargetParams`): backing device and physical start. -/
structure LinearTargetParams where
  device : Device
  startOffset : Sectors
  deriving DecidableEq

/-- One line of a device-mapper target table (`devicemapper::TargetLine`):
logical start, length, and the linear parameters. -/
structure TargetLine where
  start : Sectors
  length : Sectors
  params : LinearTargetParams
  deriving DecidableEq

/-- The loop of `map_to_dm`: walk the segments, keeping the running
logical start offset, and emit one target line per segment. -/
def mapToDmGo : List Segment → Sectors → List TargetLine
  | [], _ => []
  | seg :: rest, off =>
      { start := off, length := seg.length,
        params := { device := seg.device, startOffset := seg.start } }
        :: mapToDmGo rest (off + seg.length)

/-- Build a linear dev target table from BlkDevSegments
(`map_to_dm` in blockdevmgr.rs).  The source first maps each
`BlkDevSegment` to its `Segment` and then folds with a running
`logical_start_offset` starting at zero. -/
def mapToDm (bsegs : List BlkDevSegment) : List TargetLine :=
  mapToDmGo (bsegs.map (fun b => b.segment)) 0

/-- Encryption information attached to a member device
(`EncryptionInfo` in types.rs, used by blockdevmgr.rs): a keyring key
description plus an optional clevis binding, a (pin, configuration) pair.
The clevis configuration is an opaque JSON value in the source
(`serde_json::Value`); it is modelled as an opaque `String`. -/
structure EncryptionInfo where
  keyDescription : String
  clevisInfo : Option (String × String)
  deriving DecidableEq

/-- Modelled from the spec: `StratBlockDev` (backstore/blockdev.rs is not
among the sources; only its callers in blockdevmgr.rs are).  Per §4.2 of
the spec a member device carries an identity, a free-sector allocator
(first-fit from low sectors, splitting free runs permitted), a maximum
metadata size, and optional encryption state.  `frees` is the free-run
map, a list of (start, length) runs ordered by start.  The Boolean
oracles `saveOk`, `bindOk` and `unbindOk` model the outcome of the
fallible per-device I/O operations `save_state`, `bind_clevis` and
`unbind_clevis` (the spec says each may fail on I/O); they are data of
the state so that every claim quantifies over all I/O outcomes. -/
structure StratBlockDev where
  uuid : DevUuid
  device : Device
  frees : List (Sectors × Sectors)
  maxMetadataSizeBytes : Nat
  metadataSizeSectors : Sectors
  totalSizeSectors : Sectors
  encryptionInfo : Option EncryptionInfo
  saveOk : Bool
  bindOk : Bool
  unbindOk : Bool
  deriving DecidableEq

/-- Modelled from the spec: the sectors still free on a member device
(`StratBlockDev::available`), the total length of the free runs. -/
def StratBlockDev.available (bd : StratBlockDev) : Sectors :=
  (bd.frees.map (fun r => r.2)).sum

/-- Modelled from the spec: first-fit carving of `n` sectors from a free
run list (§4.2: "first-fit from low sectors; splitting free runs is
permitted").  Returns the runs taken, in scan order, and the remaining
free runs.  The runs taken sum to `min n available`. -/
def carve : Sectors → List (Sectors × Sectors) → List (Sectors × Sectors) × List (Sectors × Sectors)
  | _, [] => ([], [])
  | n, (s, l) :: rest =>
      if n = 0 then ([], (s, l) :: rest)
      else if l ≤ n then
        let p := carve (n - l) rest
        ((s, l) :: p.1, p.2)
      else ([(s, n)], (s + n, l - n) :: rest)

/-- Modelled from the spec: `StratBlockDev::request_space` (§4.2):
best-effort partial satisfaction, returning disjoint runs ordered by
start whose lengths sum to `min n available`, removing them from the
free map. -/
def StratBlockDev.requestSpace (n : Sectors) (bd : StratBlockDev) :
    List (Sectors × Sectors) × StratBlockDev :=
  let p := carve n bd.frees
  (p.1, { bd with frees := p.2 })

/-- Set the clevis information of a member device's encryption info
(the effect of a successful per-device `bind_clevis`/`unbind_clevis`). -/
def StratBlockDev.setClevis (bd : StratBlockDev) (c : Option (String × String)) :
    StratBlockDev :=
  { bd with encryptionInfo := bd.encryptionInfo.map (fun e => { e with clevisInfo := c }) }

/-- The hard-coded metadata fan-out cap `MAX_NUM_TO_WRITE` of
blockdevmgr.rs. -/
def MAX_NUM_TO_WRITE : Nat := 10

/-- The block device manager (`BlockDevMgr` in blockdevmgr.rs): the
ordered list of member devices and the time of the most recent
successful variable-length metadata save.  Timestamps are modelled as
`Nat` nanosecond counts. -/
structure BlockDevMgr where
  blockDevs : List StratBlockDev
  lastUpdateTime : Option Nat
  deriving DecidableEq

/-- `BlockDevMgr::avail_space`: the number of sectors not allocated for
any purpose, the sum of the members' available sectors. -/
def BlockDevMgr.availSpace (m : BlockDevMgr) : Sectors :=
  (m.blockDevs.map (fun bd => bd.available)).sum

/-- The inner loop of `BlockDevMgr::alloc_space` for one requested size:
scan the members in stored order; stop early when the running total
`alloc` reaches `needed`, otherwise call `request_space (needed - alloc)`
on the member, convert the returned runs to `BlkDevSegment`s in scan
order, and add their total to `alloc`.  Returns the segments, the final
running total, and the updated member list. -/
def allocRequest (needed alloc : Sectors) :
    List StratBlockDev → List BlkDevSegment × Sectors × List StratBlockDev
  | [] => ([], alloc, [])
  | bd :: rest =>
      if alloc = needed then ([], alloc, bd :: rest)
      else
        let p := bd.requestSpace (needed - alloc)
        let segs := p.1.map (fun r =>
          { uuid := bd.uuid,
            segment := { start := r.1, length := r.2, device := bd.device } })
        let next := allocRequest needed (alloc + (p.1.map (fun r => r.2)).sum) rest
        (segs ++ next.1, next.2.1, p.2 :: next.2.2)

/-- The outer loop of `BlockDevMgr::alloc_space`: one `allocRequest` per
requested size, threading the member list.  After each request the
source asserts `alloc == needed` (`assert_eq!`); a failed assertion is a
panic. -/
def allocSpaceGo : List Sectors → List StratBlockDev →
    PanicOr (List (List BlkDevSegment) × List StratBlockDev)
  | [], devs => .ok ([], devs)
  | n :: ns, devs =>
      let p := allocRequest n 0 devs
      if p.2.1 = n then
        match allocSpaceGo ns p.2.2 with
        | .panicked => .panicked
        | .ok q => .ok (p.1 :: q.1, q.2)
      else .panicked

/-- `BlockDevMgr::alloc_space`: if the available space is less than the
total requested, return `none` with the manager untouched; otherwise run
the request loop. -/
def BlockDevMgr.allocSpace (m : BlockDevMgr) (sizes : List Sectors) :
    PanicOr (Option (List (List BlkDevSegment)) × BlockDevMgr) :=
  if m.availSpace < sizes.sum then .ok (none, m)
  else
    match allocSpaceGo sizes m.blockDevs with
    | .panicked => .panicked
    | .ok q => .ok (some q.1, { m with blockDevs := q.2 })

/-- The indices scanned by the inner loop of
`BlockDevMgr::remove_blockdevs` on a member list of length `n`.  The
source runs `for i in 0..blockdevs_last_index` with
`index = blockdevs_last_index - i`, where
`blockdevs_last_index = len - 1`, so the indices visited are
`n-1, n-2, ..., 1` — index `0` is never visited. -/
def scanIndices (n : Nat) : List Nat :=
  (List.range (n - 1)).map (fun i => n - 1 - i)

/-- The inner loop of `remove_blockdevs`: the first index in rear-to-front
scan order (excluding index 0, as in the source) whose member has the
given uuid. -/
def findFromRear (uuid : DevUuid) (devs : List StratBlockDev) : Option Nat :=
  (scanIndices devs.length).find? (fun idx =>
    match devs.get? idx with
    | some bd => decide (bd.uuid = uuid)
    | none => false)

/-- Rust's `Vec::swap_remove i`: replace the element at `i` by the last
element and shrink by one. -/
def swapRemove (l : List StratBlockDev) (i : Nat) : List StratBlockDev :=
  match l.getLast? with
  | none => l
  | some a => (l.set i a).dropLast

/-- The outer loop of `remove_blockdevs` over the requested uuids,
accumulating the removed members.  Each iteration first computes
`self.block_devs.len() - 1`; on an empty member list this underflows
and the subsequent indexing is out of bounds, a panic either way, so the
model returns `panicked` there.  A uuid the scan does not find yields an
error — after the members found for earlier uuids have already been
taken out of the list. -/
def removeBlockdevsGo (uuids : List DevUuid) (devs removed : List StratBlockDev) :
    PanicOr (Except Unit (List StratBlockDev × List StratBlockDev)) :=
  match uuids with
  | [] => .ok (.ok (devs, removed))
  | uuid :: rest =>
      if devs.isEmpty then .panicked
      else
        match findFromRear uuid devs with
        | none => .ok (.error ())
        | some idx =>
            match devs.get? idx with
            | none => .panicked
            | some bd => removeBlockdevsGo rest (swapRemove devs idx) (removed ++ [bd])

/-- `BlockDevMgr::remove_blockdevs`: remove the members with the given
uuids and erase their metadata.  The wipe of the removed members
(`wipe_blockdevs`, in backstore/devices.rs, not among the sources) is
modelled from the spec as zeroing the removed members' headers; its
possible I/O failure is not modelled since the claims settled here
concern membership and control flow, not wipe I/O. -/
def BlockDevMgr.removeBlockdevs (m : BlockDevMgr) (uuids : List DevUuid) :
    PanicOr (Except Unit BlockDevMgr) :=
  match removeBlockdevsGo uuids m.blockDevs [] with
  | .panicked => .panicked
  | .ok (.error e) => .ok (.error e)
  | .ok (.ok p) => .ok (.ok { m with blockDevs := p.1 })

/-- The stamp computation of `BlockDevMgr::save_state`:
`if Some(current_time) <= self.last_update_time` (Rust's `Option`
ordering puts `None` below every `Some`) then the previously written
time plus one nanosecond, else the current time. -/
def stampTime (now : Nat) (last : Option Nat) : Nat :=
  match last with
  | some l => if now ≤ l then l + 1 else now
  | none => now

/-- `BlockDevMgr::save_state`: compute the stamp, filter the members
whose maximum metadata size can accommodate the payload, randomly select
at most `MAX_NUM_TO_WRITE` of them and attempt the per-device write on
each, folding the outcomes with Boolean or.  On at least one success,
advance `last_update_time` to the stamp; on zero successes return an
error with the state unchanged.  The random choice
(`rand::choose_multiple` with `thread_rng`, an external library) is
modelled by the parameter `pick`; theorems about this function assume
only the library's documented contract, that the chosen elements come
from the candidate list and number at most `MAX_NUM_TO_WRITE`.  Only the
payload's length is relevant to the modelled control flow, so the
payload is passed as a byte list and measured.

The candidate filter of `save_state`: the members whose maximum metadata
size can accommodate the payload. -/
def saveCandidates (m : BlockDevMgr) (metadata : List Nat) : List StratBlockDev :=
  m.blockDevs.filter (fun b => decide (metadata.length ≤ b.maxMetadataSizeBytes))

/-- The body of `BlockDevMgr::save_state`, after candidate filtering:
select, attempt each selected write, fold the outcomes with Boolean or,
and update `last_update_time` exactly on success. -/
def BlockDevMgr.saveState (m : BlockDevMgr)
    (pick : List StratBlockDev → List StratBlockDev)
    (now : Nat) (metadata : List Nat) : Except Unit Unit × BlockDevMgr :=
  let stamp := stampTime now m.lastUpdateTime
  let selected := pick (saveCandidates m metadata)
  let saved := selected.foldl (fun acc b => acc || b.saveOk) false
  if saved then (.ok (), { m with lastUpdateTime := some stamp })
  else (.error (), m)

/-- `BlockDevMgr::encryption_info`: the first member's encryption
information, after asserting (`assert!`) that every other member's
encryption information equals it; a failed assertion is a panic. -/
def BlockDevMgr.encryptionInfoChecked (m : BlockDevMgr) :
    PanicOr (Option EncryptionInfo) :=
  match m.blockDevs.map (fun bd => bd.encryptionInfo) with
  | [] => .ok none
  | first :: rest =>
      if rest.all (fun e => decide (e = first)) then .ok first else .panicked

/-- The fan-out loop of `BlockDevMgr::bind_clevis` (`bind_clevis_loop`
with `rollback_loop`): bind the members in order; on the first
per-device failure, unwind by unbinding the already-bound members (each
rollback unbind is itself fallible; a member whose rollback fails stays
bound), and report failure.  Returns the success flag and the resulting
member list. -/
def bindClevisLoop (pin cfg : String) :
    List StratBlockDev → Bool × List StratBlockDev
  | [] => (true, [])
  | bd :: rest =>
      if bd.bindOk then
        let p := bindClevisLoop pin cfg rest
        if p.1 then (true, bd.setClevis (some (pin, cfg)) :: p.2)
        else (false, (if bd.unbindOk then bd.setClevis none else bd.setClevis (some (pin, cfg))) :: p.2)
      else (false, bd :: rest)

/-- `BlockDevMgr::bind_clevis`: refuse unencrypted managers; interpret
the clevis configuration (`interpret_clevis_config`, in
backstore/crypt.rs, not among the sources — modelled from the spec §4.5
as a fallible function that may normalize the configuration and mines an
allow-overwrite flag from it, here the parameter `interp`); if a clevis
binding is already recorded, return `false` when it equals the requested
(pin, interpreted configuration) pair and an error otherwise; else
create the memory private filesystem (external, its success modelled by
`mpfsOk`) and fan the bind out over the members with rollback on
failure. -/
def BlockDevMgr.bindClevis (m : BlockDevMgr)
    (interp : String → String → Except Unit (Bool × String))
    (mpfsOk : Bool) (pin cfg : String) :
    PanicOr (Except Unit Bool × BlockDevMgr) :=
  match m.encryptionInfoChecked with
  | .panicked => .panicked
  | .ok none => .ok (.error (), m)
  | .ok (some info) =>
      match interp pin cfg with
      | .error _ => .ok (.error (), m)
      | .ok yc =>
          match info.clevisInfo with
          | some existing =>
              if existing = (pin, yc.2) then .ok (.ok false, m)
              else .ok (.error (), m)
          | none =>
              if mpfsOk then
                let p := bindClevisLoop pin yc.2 m.blockDevs
                if p.1 then .ok (.ok true, { m with blockDevs := p.2 })
                else .ok (.error (), { m with blockDevs := p.2 })
              else .ok (.error (), m)

/-- The loop of `BlockDevMgr::unbind_clevis`: unbind the members in
order; each per-device failure is logged and then propagated immediately
(`res?`), so the members after the first failure are not attempted and
nothing is rebound. -/
def unbindClevisLoop : List StratBlockDev → Bool × List StratBlockDev
  | [] => (true, [])
  | bd :: rest =>
      if bd.unbindOk then
        let p := unbindClevisLoop rest
        (p.1, bd.setClevis none :: p.2)
      else (false, bd :: rest)

/-- `BlockDevMgr::unbind_clevis`: an unencrypted manager is an error; an
encrypted manager without a clevis binding returns `false`; otherwise
run the unbind loop, returning `true` if every member unbound and the
first failure's error otherwise, with the member list as the loop left
it. -/
def BlockDevMgr.unbindClevis (m : BlockDevMgr) :
    PanicOr (Except Unit Bool × BlockDevMgr) :=
  match m.encryptionInfoChecked with
  | .panicked => .panicked
  | .ok none => .ok (.error (), m)
  | .ok (some info) =>
      match info.clevisInfo with
      | none => .ok (.ok false, m)
      | some _ =>
          let p := unbindClevisLoop m.blockDevs
          if p.1 then .ok (.ok true, { m with blockDevs := p.2 })
          else .ok (.error (), { m with blockDevs := p.2 })

/-- Udev ownership verdict (`UdevOwnership` in udev.rs, not among the
sources — modelled from the spec §4.4's verdict table: a device is
Stratis-owned, unowned, claimed by something else, or a multipath
member). -/
inductive UdevOwnership : Type
  | stratis : UdevOwnership
  | unowned : UdevOwnership
  | theirs : UdevOwnership
  | multipathMember : UdevOwnership
  deriving DecidableEq

deriving instance DecidableEq for Except

/-- One entry of the kernel device database as identify.rs consumes it.
The fields record the answers the external collaborators give for this
device: the udev `is_initialized` flag and `ID_FS_TYPE` property, the
verdicts of `decide_ownership` and `is_multipath_member` (udev.rs, not
among the sources, modelled from the spec as fallible per-device
verdicts), the optional devnode and device number, and the result of
`device_identifiers_wrapper`, whose nested shape is: outer error = the
device could not be opened for reading, inner error = reading the
Stratis header failed, `none` = no Stratis identifiers on the device,
`some u` = the device belongs to pool `u`. -/
structure UdevEntry where
  initialized : Bool
  fsType : Option String
  ownership : Except String UdevOwnership
  multipath : Except String Bool
  devnode : Option String
  devno : Option Device
  ids : Except String (Except String (Option PoolUuid))
  deriving DecidableEq

/-- Insert into the inner per-pool map (`HashMap<Device, PathBuf>`):
replace the entry with equal device number, or append. -/
def insertDev (l : List (Device × String)) (d : Device) (p : String) :
    List (Device × String) :=
  if l.any (fun e => decide (e.1 = d)) then
    l.map (fun e => if e.1 = d then (d, p) else e)
  else l ++ [(d, p)]

/-- Insert into the pool map (`HashMap<PoolUuid, HashMap<Device,
PathBuf>>` built by `.entry(pool_uuid).or_insert_with(...).insert(...)`). -/
def insertPool (acc : List (PoolUuid × List (Device × String)))
    (u : PoolUuid) (d : Device) (p : String) :
    List (PoolUuid × List (Device × String)) :=
  if acc.any (fun e => decide (e.1 = u)) then
    acc.map (fun e => if e.1 = u then (e.1, insertDev e.2 d p) else e)
  else acc ++ [(u, [(d, p)])]

/-- The shared tail of both scans in identify.rs (`filter_map` over the
devnode / device number / identifiers): `none` when the udev entry has
no devnode, when it has no device number (`device_to_devno_wrapper`
error), when the device could not be opened, when reading the header
failed, or when no Stratis identifiers are present; otherwise the
(pool uuid, device number, devnode) triple. -/
def extractDev (d : UdevEntry) : Option (PoolUuid × Device × String) :=
  match d.devnode with
  | none => none
  | some node =>
      match d.devno, d.ids with
      | none, _ => none
      | some _, .error _ => none
      | some _, .ok (.error _) => none
      | some _, .ok (.ok none) => none
      | some n, .ok (.ok (some u)) => some (u, n, node)

/-- The iterator pipeline of `find_all_stratis_devices`: the enumerator
matches `ID_FS_TYPE == "stratis"`, then uninitialized entries are
dropped, then multipath members are dropped (an error while determining
multipath membership drops the device, for safety), then the shared
extraction runs. -/
def stratisPipeline (inv : List UdevEntry) : List (PoolUuid × Device × String) :=
  (((inv.filter (fun d => decide (d.fsType = some "stratis"))).filter
      (fun d => d.initialized)).filter
      (fun d => match d.multipath with
        | .ok b => !b
        | .error _ => false)).filterMap extractDev

/-- `find_all_stratis_devices` in identify.rs: fold the pipeline's
triples into the pool map. -/
def findAllStratisDevices (inv : List UdevEntry) :
    List (PoolUuid × List (Device × String)) :=
  (stratisPipeline inv).foldl (fun acc t => insertPool acc t.1 t.2.1 t.2.2) []

/-- The iterator pipeline of
`find_all_block_devices_with_stratis_signatures`: every block device is
enumerated, uninitialized entries are dropped, then `decide_ownership`
keeps only `Stratis` and `Unowned` verdicts (an error drops the device,
for safety), then the shared extraction runs. -/
def signaturePipeline (inv : List UdevEntry) : List (PoolUuid × Device × String) :=
  ((inv.filter (fun d => d.initialized)).filter
      (fun d => match d.ownership with
        | .ok .stratis => true
        | .ok .unowned => true
        | _ => false)).filterMap extractDev

/-- `find_all_block_devices_with_stratis_signatures` in identify.rs. -/
def findAllWithSignatures (inv : List UdevEntry) :
    List (PoolUuid × List (Device × String)) :=
  (signaturePipeline inv).foldl (fun acc t => insertPool acc t.1 t.2.1 t.2.2) []

/-- `find_all` in identify.rs: run the primary scan; if its pool map is
empty, run and return the fallback scan, otherwise return the primary
result.  (The only error `find_all` can return in the source is a
libudev enumerator construction/scan failure, an external I/O event
outside the model; the model takes the scanned inventory as input.) -/
def findAll (inv : List UdevEntry) : List (PoolUuid × List (Device × String)) :=
  let poolMap := findAllStratisDevices inv
  if poolMap.isEmpty then findAllWithSignatures inv else poolMap

/-- A per-device failure in the sense of the discovery claims: the udev
entry has no devnode or no device number, the device could not be
opened, or its header failed to decode. -/
def perDevFailure (d : UdevEntry) : Bool :=
  d.devnode.isNone || d.devno.isNone ||
    (match d.ids with
     | .error _ => true
     | .ok (.error _) => true
     | .ok (.ok _) => false)

/-!  Theorems.  -/

/-- A concrete member device for witnesses: identity, free runs, max
metadata size, encryption info and the three I/O outcome oracles. -/
def mkBD (u d : Nat) (fr : List (Sectors × Sectors)) (mms : Nat)
    (ei : Option EncryptionInfo) (so bo uo : Bool) : StratBlockDev :=
  { uuid := u, device := d, frees := fr, maxMetadataSizeBytes := mms,
    metadataSizeSectors := 0, totalSizeSectors := 0, encryptionInfo := ei,
    saveOk := so, bindOk := bo, unbindOk := uo }

/-- C1: if the sum of the requested sizes exceeds `avail_space()`,
`alloc_space` returns absent and the manager — its `avail_space()` and
every member's free-sector map included — is exactly as before the
call. -/
theorem claim_C1 (m : BlockDevMgr) (sizes : List Sectors)
    (h : sizes.sum > m.availSpace) :
    m.allocSpace sizes = .ok (none, m) := by
  simp [BlockDevMgr.allocSpace, h]

def mgrW1 : BlockDevMgr := { blockDevs := [mkBD 1 1 [(10, 5)] 0 none false false false], lastUpdateTime := none }

/-- Witness for C1 at a concrete manager with 5 available sectors and a
request of 7. -/
theorem claim_C1_witness :
    ([7] : List Sectors).sum > mgrW1.availSpace ∧
      mgrW1.allocSpace [7] = .ok (none, mgrW1) :=
  ⟨by decide, claim_C1 mgrW1 [7] (by decide)⟩

/-- Length of the segments allocated by one `allocRequest` pass: the
final running total equals the initial one plus the total length of the
returned segments. -/
lemma allocRequest_total (needed : Sectors) :
    ∀ (devs : List StratBlockDev) (alloc : Sectors),
      (allocRequest needed alloc devs).2.1 =
        alloc + ((allocRequest needed alloc devs).1.map (fun s => s.segment.length)).sum := by
  intro devs
  induction devs with
  | nil => intro alloc; simp [allocRequest]
  | cons bd rest ih =>
      intro alloc
      by_cases h : alloc = needed
      · simp [allocRequest, h]
      · simp only [allocRequest, if_neg h]
        rw [ih]
        simp [List.map_map, Function.comp_def, Nat.add_assoc]

/-- The outer allocation loop: every produced per-request segment list
sums to its requested size (the `assert_eq!` in the source guards
exactly this). -/
lemma allocSpaceGo_sums :
    ∀ (sizes : List Sectors) (devs : List StratBlockDev)
      (lists : List (List BlkDevSegment)) (devs2 : List StratBlockDev),
      allocSpaceGo sizes devs = .ok (lists, devs2) →
        lists.length = sizes.length ∧
          ∀ i (hi : i < sizes.length) (hl : i < lists.length),
            ((lists.get ⟨i, hl⟩).map (fun s => s.segment.length)).sum = sizes.get ⟨i, hi⟩ := by
  intro sizes
  induction sizes with
  | nil =>
      intro devs lists devs2 h
      simp only [allocSpaceGo] at h
      cases h
      exact ⟨rfl, fun i hi => absurd hi (Nat.not_lt_zero i)⟩
  | cons n ns ih =>
      intro devs lists devs2 h
      simp only [allocSpaceGo] at h
      by_cases hc : (allocRequest n 0 devs).2.1 = n
      · rw [if_pos hc] at h
        cases hgo : allocSpaceGo ns (allocRequest n 0 devs).2.2 with
        | panicked => rw [hgo] at h; cases h
        | ok q =>
            rw [hgo] at h
            cases h
            obtain ⟨hlen, hsum⟩ := ih _ q.1 q.2 (by rw [hgo])
            refine ⟨by simp [hlen], ?_⟩
            intro i hi hl
            cases i with
            | zero =>
                have := allocRequest_total n devs 0
                simp only [Nat.zero_add] at this
                simp [← this, hc]
            | succ j =>
                have hj : j < ns.length := Nat.lt_of_succ_lt_succ hi
                have hjl : j < q.1.length := Nat.lt_of_succ_lt_succ (by simpa using hl)
                simpa using hsum j hj hjl
      · rw [if_neg hc] at h; cases h

/-- C2: whenever `alloc_space(sizes)` returns a result, it has one
segment list per requested size, and the lengths of the segments of
`result[i]` — gathered by scanning the members in stored order and
concatenating each member's `request_space` runs in scan order, which is
what the definition of `allocRequest` does — sum to `sizes[i]`. -/
theorem claim_C2 (m : BlockDevMgr) (sizes : List Sectors)
    (lists : List (List BlkDevSegment)) (m2 : BlockDevMgr)
    (h : m.allocSpace sizes = .ok (some lists, m2)) :
    lists.length = sizes.length ∧
      ∀ i (hi : i < sizes.length) (hl : i < lists.length),
        ((lists.get ⟨i, hl⟩).map (fun s => s.segment.length)).sum = sizes.get ⟨i, hi⟩ := by
  simp only [BlockDevMgr.allocSpace] at h
  by_cases hlt : m.availSpace < sizes.sum
  · rw [if_pos hlt] at h; cases h
  · rw [if_neg hlt] at h
    cases hgo : allocSpaceGo sizes m.blockDevs with
    | panicked => rw [hgo] at h; cases h
    | ok q =>
        rw [hgo] at h
        cases h
        exact allocSpaceGo_sums sizes m.blockDevs q.1 q.2 (by rw [hgo])

def mgrW2 : BlockDevMgr := { blockDevs := [mkBD 7 1 [(0, 10)] 0 none false false false], lastUpdateTime := none }

def mgrW2r : BlockDevMgr := { blockDevs := [mkBD 7 1 [(7, 3)] 0 none false false false], lastUpdateTime := none }

def listsW2 : List (List BlkDevSegment) :=
  [[{ uuid := 7, segment := { start := 0, length := 3, device := 1 } }],
   [{ uuid := 7, segment := { start := 3, length := 4, device := 1 } }]]

/-- Witness for C2: a one-member manager with 10 free sectors serving
requests of 3 and 4. -/
theorem claim_C2_witness :
    listsW2.length = ([3, 4] : List Sectors).length ∧
      ∀ i (hi : i < ([3, 4] : List Sectors).length) (hl : i < listsW2.length),
        ((listsW2.get ⟨i, hl⟩).map (fun s => s.segment.length)).sum =
          ([3, 4] : List Sectors).get ⟨i, hi⟩ :=
  claim_C2 mgrW2 [3, 4] listsW2 mgrW2r (by decide)

def mgrC3 : BlockDevMgr := { blockDevs := [mkBD 0 1 [] 0 none false false false], lastUpdateTime := none }

/-- C3 (code bug): a manager whose single member has uuid 0 refuses to
remove that very member.  The rear-to-front scan of `remove_blockdevs`
runs over `for i in 0..blockdevs_last_index`, visiting indices
`len-1, ..., 1` and never index 0, so the member at index 0 is reported
as not found, contradicting the function's own documentation ("If a
specified blockdev is not found, returns an error and does nothing" —
here the blockdev IS found among the members) and the claim's
Ok-iff-member contract. -/
theorem claim_C3_failing : mgrC3.blockDevs.map (fun bd => bd.uuid) = [0] ∧
    mgrC3.removeBlockdevs [0] = .ok (.error ()) := by decide

def mgrC10 : BlockDevMgr := { blockDevs := [], lastUpdateTime := none }

/-- C10 (code bug): on an empty member list and a non-empty uuid list,
`remove_blockdevs` computes `self.block_devs.len() - 1`, which
underflows (a panic in debug builds; in release builds it wraps and the
subsequent indexing is out of bounds, also a panic), contradicting the
totality the function's documentation implies ("If a specified blockdev
is not found, returns an error"). -/
theorem claim_C10_panics : mgrC10.removeBlockdevs [5] = .panicked := by decide

/-- C4: each successful `save_state` call stamps
`max(now, last_update_time + 1ns)`: the new `last_update_time` is that
stamp, and it is strictly greater than the previous `last_update_time`,
so across every sequence of successful calls `last_update_time` is
strictly increasing. -/
theorem claim_C4 (pick : List StratBlockDev → List StratBlockDev)
    (now : Nat) (metadata : List Nat) (m : BlockDevMgr) (l : Nat)
    (res : Except Unit Unit) (m2 : BlockDevMgr)
    (h : m.saveState pick now metadata = (res, m2))
    (hres : res = .ok ())
    (hl : m.lastUpdateTime = some l) :
    m2.lastUpdateTime = some (stampTime now (some l)) ∧
      stampTime now (some l) = max now (l + 1) ∧
      l < stampTime now (some l) := by
  have hstamp : stampTime now (some l) = max now (l + 1) := by
    simp only [stampTime]
    by_cases hn : now ≤ l
    · rw [if_pos hn, Nat.max_eq_right (Nat.le_succ_of_le hn)]
    · rw [if_neg hn, Nat.max_eq_left (Nat.lt_of_not_le hn)]
  have hlt : l < stampTime now (some l) := by
    rw [hstamp]
    exact Nat.lt_of_lt_of_le (Nat.lt_succ_self l) (Nat.le_max_right now (l + 1))
  refine ⟨?_, hstamp, hlt⟩
  simp only [BlockDevMgr.saveState] at h
  by_cases hs :
      (pick (saveCandidates m metadata)).foldl (fun acc b => acc || b.saveOk) false = true
  · rw [if_pos hs] at h
    cases h
    simp [hl]
  · rw [if_neg hs] at h
    cases h
    cases hres

def mgrW4 : BlockDevMgr := { blockDevs := [mkBD 1 1 [] 100 none true false false], lastUpdateTime := some 5 }

def mgrW4r : BlockDevMgr := { blockDevs := [mkBD 1 1 [] 100 none true false false], lastUpdateTime := some 6 }

/-- Witness for C4: one member with room for the payload and a
succeeding write, previous stamp 5, clock reading 3; the new stamp is
6 = max(3, 5+1). -/
theorem claim_C4_witness :
    mgrW4r.lastUpdateTime = some (stampTime 3 (some 5)) ∧
      stampTime 3 (some 5) = max 3 (5 + 1) ∧
      5 < stampTime 3 (some 5) :=
  claim_C4 (fun l => l) 3 [] mgrW4 5 (.ok ()) mgrW4r (by decide) rfl rfl

/-- Folding per-device write outcomes with Boolean or, as `save_state`
does, succeeds exactly when some attempted device succeeded. -/
lemma foldl_or_eq_any (l : List StratBlockDev) :
    ∀ acc : Bool, l.foldl (fun acc b => acc || b.saveOk) acc = (acc || l.any (fun b => b.saveOk)) := by
  induction l with
  | nil => intro acc; simp
  | cons bd rest ih =>
      intro acc
      simp [List.foldl_cons, List.any_cons, ih, Bool.or_assoc]

/-- C5: the manager's `save_state` attempts the per-device write only on
the randomly selected members, which number at most
`MAX_NUM_TO_WRITE = 10` and all have maximum metadata size at least the
payload size; it succeeds if and only if at least one attempted write
succeeds, and on zero successes it returns an error with the whole
manager state — `last_update_time` included — unchanged.  The selection
function `pick` stands for `rand`'s `choose_multiple` and is constrained
only by that library's documented contract. -/
theorem claim_C5 (pick : List StratBlockDev → List StratBlockDev)
    (hpick_mem : ∀ (l : List StratBlockDev) (b : StratBlockDev), b ∈ pick l → b ∈ l)
    (hpick_len : ∀ l : List StratBlockDev, (pick l).length ≤ MAX_NUM_TO_WRITE)
    (now : Nat) (metadata : List Nat) (m : BlockDevMgr) :
    (pick (saveCandidates m metadata)).length ≤ MAX_NUM_TO_WRITE ∧
      (∀ b ∈ pick (saveCandidates m metadata), metadata.length ≤ b.maxMetadataSizeBytes) ∧
      ((m.saveState pick now metadata).1 = .ok () ↔
        (pick (saveCandidates m metadata)).any (fun b => b.saveOk) = true) ∧
      ((pick (saveCandidates m metadata)).any (fun b => b.saveOk) = false →
        m.saveState pick now metadata = (.error (), m)) := by
  refine ⟨hpick_len _, ?_, ?_, ?_⟩
  · intro b hb
    have hmem := hpick_mem _ b hb
    have := (List.mem_filter.mp hmem).2
    exact of_decide_eq_true this
  · simp only [BlockDevMgr.saveState, foldl_or_eq_any, Bool.false_or]
    cases hany : (pick (saveCandidates m metadata)).any (fun b => b.saveOk) <;> simp
  · intro hany
    simp [BlockDevMgr.saveState, foldl_or_eq_any, hany]

def pickW5 : List StratBlockDev → List StratBlockDev := fun l => l.take MAX_NUM_TO_WRITE

def mgrW5 : BlockDevMgr := { blockDevs := [mkBD 1 1 [] 100 none true false false], lastUpdateTime := none }

/-- Witness for C5: the take-a-prefix selection satisfies the
`choose_multiple` contract; at a one-member manager whose member accepts
the write, the selection is within bounds and `save_state` succeeds. -/
theorem claim_C5_witness :
    (pickW5 (saveCandidates mgrW5 [])).length ≤ MAX_NUM_TO_WRITE ∧
      ((mgrW5.saveState pickW5 0 []).1 = .ok () ↔
        (pickW5 (saveCandidates mgrW5 [])).any (fun b => b.saveOk) = true) := by
  have h := claim_C5 pickW5
    (fun l b hb => List.take_subset MAX_NUM_TO_WRITE l hb)
    (fun l => List.length_take_le MAX_NUM_TO_WRITE l)
    0 [] mgrW5
  exact ⟨h.1, h.2.2.1⟩

/-- Element-wise description of the `map_to_dm` loop: the table entry at
index `i` starts at the initial offset plus the lengths of the segments
before `i`, and carries the `i`-th segment's length, device and physical
start. -/
lemma mapToDmGo_getElem (ss : List Segment) :
    ∀ (off : Sectors) (i : Nat),
      (mapToDmGo ss off).get? i = (ss.get? i).map (fun seg =>
        { start := off + ((ss.take i).map (fun s => s.length)).sum,
          length := seg.length,
          params := { device := seg.device, startOffset := seg.start } }) := by
  induction ss with
  | nil => intro off i; simp [mapToDmGo]
  | cons hd tl ih =>
      intro off i
      cases i with
      | zero => simp [mapToDmGo]
      | succ j =>
          simp only [mapToDmGo, List.get?_cons_succ, List.take_succ_cons, List.map_cons,
            List.sum_cons, ih]
          cases tl.get? j <;> simp [Nat.add_assoc]

/-- The `map_to_dm` loop emits one table line per segment. -/
lemma mapToDmGo_length (ss : List Segment) :
    ∀ off : Sectors, (mapToDmGo ss off).length = ss.length := by
  induction ss with
  | nil => intro off; simp [mapToDmGo]
  | cons hd tl ih => intro off; simp [mapToDmGo, ih]

/-- C6: `map_to_dm` returns one entry per input segment, in input order;
entry `i` is backed by the `i`-th segment's device and physical start,
has that segment's length, and starts logically at the sum of the
lengths of the segments before it; and consecutive logical ranges abut
(the third conjunct), so the ranges tile `[0, Σ lengths)` with no gaps
and no overlaps. -/
theorem claim_C6 (segs : List BlkDevSegment) (i : Nat) (h : i < segs.length) :
    (mapToDm segs).length = segs.length ∧
      (mapToDm segs).get? i = some
        { start := ((segs.take i).map (fun b => b.segment.length)).sum,
          length := (segs.get ⟨i, h⟩).segment.length,
          params := { device := (segs.get ⟨i, h⟩).segment.device,
                      startOffset := (segs.get ⟨i, h⟩).segment.start } } ∧
      ((segs.take i).map (fun b => b.segment.length)).sum +
          (segs.get ⟨i, h⟩).segment.length =
        ((segs.take (i + 1)).map (fun b => b.segment.length)).sum := by
  refine ⟨?_, ?_, ?_⟩
  · simp [mapToDm, mapToDmGo_length]
  · rw [mapToDm, mapToDmGo_getElem]
    rw [List.get?_map, List.get?_eq_get h]
    simp [← List.map_take, List.map_map, Function.comp_def]
  · have hi2 : i < (segs.map (fun b => b.segment.length)).length := by simpa using h
    rw [List.map_take, List.map_take, List.sum_take_succ _ i hi2]
    simp

def segsW6 : List BlkDevSegment :=
  [{ uuid := 1, segment := { start := 5, length := 3, device := 2 } },
   { uuid := 1, segment := { start := 20, length := 4, device := 2 } }]

lemma segsW6_len : 1 < segsW6.length := by decide

/-- Witness for C6 at a two-segment list, index 1. -/
theorem claim_C6_witness :
    (mapToDm segsW6).length = segsW6.length ∧
      (mapToDm segsW6).get? 1 = some
        { start := ((segsW6.take 1).map (fun b => b.segment.length)).sum,
          length := (segsW6.get ⟨1, segsW6_len⟩).segment.length,
          params := { device := (segsW6.get ⟨1, segsW6_len⟩).segment.device,
                      startOffset := (segsW6.get ⟨1, segsW6_len⟩).segment.start } } ∧
      ((segsW6.take 1).map (fun b => b.segment.length)).sum +
          (segsW6.get ⟨1, segsW6_len⟩).segment.length =
        ((segsW6.take (1 + 1)).map (fun b => b.segment.length)).sum :=
  claim_C6 segsW6 1 segsW6_len

/-- C7: on an encrypted manager, when the already-recorded clevis
binding equals the requested (pin, interpreted configuration) pair,
`bind_clevis` returns `false` and performs no per-device binding — the
manager is returned exactly as it was; when a different binding is
recorded, it returns an error, again with no member changed.
`interp` stands for `interpret_clevis_config` (backstore/crypt.rs, not
among the sources), modelled from the spec as a fallible normalizing
interpretation of the configuration. -/
theorem claim_C7 (m : BlockDevMgr)
    (interp : String → String → Except Unit (Bool × String))
    (mpfs : Bool) (pin cfg cfgN : String) (yes : Bool) (info : EncryptionInfo)
    (hinfo : m.encryptionInfoChecked = .ok (some info))
    (hint : interp pin cfg = .ok (yes, cfgN)) :
    (info.clevisInfo = some (pin, cfgN) →
      m.bindClevis interp mpfs pin cfg = .ok (.ok false, m)) ∧
      (∀ pc, info.clevisInfo = some pc → pc ≠ (pin, cfgN) →
        m.bindClevis interp mpfs pin cfg = .ok (.error (), m)) := by
  constructor
  · intro hce
    simp [BlockDevMgr.bindClevis, hinfo, hint, hce]
  · intro pc hpc hne
    simp [BlockDevMgr.bindClevis, hinfo, hint, hpc, hne]

def eiW7 : EncryptionInfo := { keyDescription := "k", clevisInfo := some ("tang", "cfg") }

def mgrW7 : BlockDevMgr := { blockDevs := [mkBD 1 1 [] 0 (some eiW7) false false false], lastUpdateTime := none }

def interpW7 : String → String → Except Unit (Bool × String) := fun _ c => .ok (false, c)

/-- Witness for C7: rebinding the binding already recorded on a
one-member encrypted manager returns `false` and leaves the manager
untouched. -/
theorem claim_C7_witness :
    mgrW7.bindClevis interpW7 true "tang" "cfg" = .ok (.ok false, mgrW7) :=
  (claim_C7 mgrW7 interpW7 true "tang" "cfg" "cfg" false eiW7 (by decide) rfl).1 rfl

def mgrC8 : BlockDevMgr := { blockDevs := [mkBD 1 1 [] 0 none false false true], lastUpdateTime := none }

/-- C8 counterexample: on a manager whose members carry no escrow
binding at all — they are unencrypted — `unbind_clevis` does not return
`false` as the claim states; it returns an error ("Requested pool does
not appear to be encrypted"). -/
theorem claim_C8_counterexample :
    mgrC8.blockDevs.all
        (fun bd => decide ((bd.encryptionInfo.bind (fun e => e.clevisInfo)) = none)) = true ∧
      mgrC8.unbindClevis = .ok (.error (), mgrC8) := by decide

/-- Closed form of the `unbind_clevis` loop: it succeeds exactly when
every member's unbind succeeds, the members before the first failure end
up unbound, and the first failing member and everything after it are
left untouched — in particular nothing is rebound. -/
lemma unbindClevisLoop_eq (l : List StratBlockDev) :
    unbindClevisLoop l =
      (l.all (fun bd => bd.unbindOk),
       (l.takeWhile (fun bd => bd.unbindOk)).map (fun bd => bd.setClevis none)
         ++ l.dropWhile (fun bd => bd.unbindOk)) := by
  induction l with
  | nil => simp [unbindClevisLoop]
  | cons bd rest ih =>
      by_cases h : bd.unbindOk = true
      · simp [unbindClevisLoop, h, ih, List.takeWhile_cons, List.dropWhile_cons]
      · simp [unbindClevisLoop, h, List.takeWhile_cons, List.dropWhile_cons]

/-- C8 as amended: on an unencrypted manager `unbind_clevis` returns an
error (not `false`); on an encrypted manager with no escrow binding it
returns `false` with nothing changed; otherwise it attempts the unbind
member by member in stored order, stopping at the first failure: on any
failure it returns that error, the members already unbound stay unbound
(no rebinding is attempted) and the failing member and those after it
are untouched. -/
theorem claim_C8_amended (m : BlockDevMgr) :
    (m.encryptionInfoChecked = .ok none → m.unbindClevis = .ok (.error (), m)) ∧
      (∀ info, m.encryptionInfoChecked = .ok (some info) → info.clevisInfo = none →
        m.unbindClevis = .ok (.ok false, m)) ∧
      (∀ info pc, m.encryptionInfoChecked = .ok (some info) → info.clevisInfo = some pc →
        m.unbindClevis = .ok
          ((if m.blockDevs.all (fun bd => bd.unbindOk) then Except.ok true else Except.error ()),
           { m with blockDevs :=
               (m.blockDevs.takeWhile (fun bd => bd.unbindOk)).map (fun bd => bd.setClevis none)
                 ++ m.blockDevs.dropWhile (fun bd => bd.unbindOk) })) := by
  refine ⟨?_, ?_, ?_⟩
  · intro h
    simp [BlockDevMgr.unbindClevis, h]
  · intro info h hc
    simp [BlockDevMgr.unbindClevis, h, hc]
  · intro info pc h hc
    simp only [BlockDevMgr.unbindClevis, h, hc, unbindClevisLoop_eq]
    by_cases hall : m.blockDevs.all (fun bd => bd.unbindOk) = true
    · simp [hall]
    · simp [hall]

def eiW8 : EncryptionInfo := { keyDescription := "k", clevisInfo := some ("t", "c") }

def mgrW8 : BlockDevMgr :=
  { blockDevs := [mkBD 1 1 [] 0 (some eiW8) false false true,
                  mkBD 2 2 [] 0 (some eiW8) false false false],
    lastUpdateTime := none }

def mgrW8r : BlockDevMgr :=
  { blockDevs := [(mkBD 1 1 [] 0 (some eiW8) false false true).setClevis none,
                  mkBD 2 2 [] 0 (some eiW8) false false false],
    lastUpdateTime := none }

/-- Witness for the amended C8: two escrow-bound members, the first
unbinds, the second fails; the call errors, the first stays unbound, the
second keeps its binding. -/
theorem claim_C8_amended_witness :
    mgrW8.unbindClevis = .ok (.error (), mgrW8r) := by
  have h := (claim_C8_amended mgrW8).2.2 eiW8 ("t", "c") (by decide) rfl
  rw [h]
  decide

/-- A udev entry with a per-device failure contributes nothing to the
extraction stage of either scan. -/
lemma extractDev_of_fail (d : UdevEntry) (hd : perDevFailure d = true) :
    extractDev d = none := by
  rcases d with ⟨ini, fs, own, mp, node, no, ids⟩
  simp only [perDevFailure] at hd
  cases node with
  | none => rfl
  | some nd =>
      cases no with
      | none => rfl
      | some dn =>
          cases ids with
          | error e => rfl
          | ok inner =>
              cases inner with
              | error e => rfl
              | ok o => simp at hd

/-- Filtering a singleton either keeps it or drops it. -/
lemma filter_singleton_cases (p : UdevEntry → Bool) (a : UdevEntry) :
    List.filter p [a] = [] ∨ List.filter p [a] = [a] := by
  by_cases h : p a = true
  · right; simp [List.filter, h]
  · left; simp [List.filter, h]

/-- The primary scan's pipeline distributes over list append: each
device is processed independently, so a problem with one device cannot
abort the processing of the others. -/
lemma stratisPipeline_append (xs ys : List UdevEntry) :
    stratisPipeline (xs ++ ys) = stratisPipeline xs ++ stratisPipeline ys := by
  simp [stratisPipeline, List.filter_append, List.filterMap_append]

/-- The fallback scan's pipeline distributes over list append. -/
lemma signaturePipeline_append (xs ys : List UdevEntry) :
    signaturePipeline (xs ++ ys) = signaturePipeline xs ++ signaturePipeline ys := by
  simp [signaturePipeline, List.filter_append, List.filterMap_append]

/-- A device with a per-device failure contributes nothing to the
primary scan. -/
lemma stratisPipeline_fail (d : UdevEntry) (hd : perDevFailure d = true) :
    stratisPipeline [d] = [] := by
  have hx := extractDev_of_fail d hd
  unfold stratisPipeline
  rcases filter_singleton_cases (fun d => decide (d.fsType = some "stratis")) d with h1 | h1 <;>
    rw [h1]
  · rfl
  · rcases filter_singleton_cases (fun d => d.initialized) d with h2 | h2 <;> rw [h2]
    · rfl
    · rcases filter_singleton_cases
          (fun d => match d.multipath with
            | .ok b => !b
            | .error _ => false) d with h3 | h3 <;> rw [h3]
      · rfl
      · simp [List.filterMap, hx]

/-- A device with a per-device failure contributes nothing to the
fallback scan. -/
lemma signaturePipeline_fail (d : UdevEntry) (hd : perDevFailure d = true) :
    signaturePipeline [d] = [] := by
  have hx := extractDev_of_fail d hd
  unfold signaturePipeline
  rcases filter_singleton_cases (fun d => d.initialized) d with h1 | h1 <;> rw [h1]
  · rfl
  · rcases filter_singleton_cases
        (fun d => match d.ownership with
          | .ok .stratis => true
          | .ok .unowned => true
          | _ => false) d with h2 | h2 <;> rw [h2]
    · rfl
    · simp [List.filterMap, hx]

/-- C9: `find_all` returns the fallback scan's pool map exactly when the
primary scan for devices tagged `ID_FS_TYPE=stratis` comes back empty,
and the primary result otherwise; and in either scan a device that
cannot be opened, has no devnode or device number, or whose header fails
to decode is simply skipped — the scan's result over the remaining
devices is exactly as if the failing device were not present, so a
per-device failure never causes the scan to return an error. -/
theorem claim_C9 (inv xs ys : List UdevEntry) (d : UdevEntry)
    (hd : perDevFailure d = true) :
    (findAllStratisDevices inv = [] → findAll inv = findAllWithSignatures inv) ∧
      (findAllStratisDevices inv ≠ [] → findAll inv = findAllStratisDevices inv) ∧
      findAllStratisDevices (xs ++ d :: ys) = findAllStratisDevices (xs ++ ys) ∧
      findAllWithSignatures (xs ++ d :: ys) = findAllWithSignatures (xs ++ ys) := by
  refine ⟨?_, ?_, ?_, ?_⟩
  · intro h
    simp [findAll, h]
  · intro h
    simp [findAll, h]
  · have : xs ++ d :: ys = xs ++ [d] ++ ys := by simp
    rw [this]
    unfold findAllStratisDevices
    rw [stratisPipeline_append, stratisPipeline_append, stratisPipeline_fail d hd,
      stratisPipeline_append]
    simp
  · have : xs ++ d :: ys = xs ++ [d] ++ ys := by simp
    rw [this]
    unfold findAllWithSignatures
    rw [signaturePipeline_append, signaturePipeline_append, signaturePipeline_fail d hd,
      signaturePipeline_append]
    simp

def gDevW9 : UdevEntry :=
  { initialized := true, fsType := some "stratis", ownership := .ok .stratis,
    multipath := .ok false, devnode := some "n", devno := some 2,
    ids := .ok (.ok (some 9)) }

def badDevW9 : UdevEntry :=
  { initialized := true, fsType := some "stratis", ownership := .ok .stratis,
    multipath := .ok false, devnode := some "b", devno := some 3,
    ids := .error "open failed" }

/-- Witness for C9: with one healthy tagged device the primary scan is
non-empty and `find_all` returns it; a device whose open fails is
skipped by both scans without disturbing the healthy device. -/
theorem claim_C9_witness :
    findAll [gDevW9] = findAllStratisDevices [gDevW9] ∧
      findAllStratisDevices ([] ++ badDevW9 :: [gDevW9]) =
        findAllStratisDevices ([] ++ [gDevW9]) ∧
      findAllWithSignatures ([] ++ badDevW9 :: [gDevW9]) =
        findAllWithSignatures ([] ++ [gDevW9]) := by
  have h := claim_C9 [gDevW9] [] [gDevW9] badDevW9 (by decide)
  exact ⟨h.2.1 (by decide), h.2.2.1, h.2.2.2⟩

end Stratisd
